import Mathlib

/-!
Verification of the RAG proxy/query subsystem.

Shallow embedding of the three source files:
- `app/api/v1/documents.py`  (identifier normalizer, proxy token issuer, RAG proxy request)
- `app/core/langgraph/tools/rag_search.py`  (search tool: payload composition, result
  formatting, async entry point, tool token issuer)

Python strings are modelled as Lean `String`; machine-level details (Unicode case
folding beyond ASCII, float formatting) are modelled on the fragment the code
exercises.  Fallible Python code (statements that can raise) is embedded as
`Except PyErr`; the outcome of the single outbound HTTP call is an explicit
parameter, so every embedded operation is a total computable function.
-/

/-! ## Python primitives -/

/-- Python exceptions that can escape the embedded fragments. -/
inductive PyErr where
  | typeError (msg : String)
  | attributeError (msg : String)
deriving DecidableEq, Repr

/-- Whitespace characters recognised by Python `str.strip()` / `str.split()`
(modelled on the ASCII range). -/
def pyIsSpace (c : Char) : Bool :=
  c == ' ' || c == '\t' || c == '\n' || c == '\r' || c == '\x0b' || c == '\x0c'

/-- Python `str.lower()`, modelled on the ASCII range. -/
def pyLowerChar (c : Char) : Char :=
  if 65 ≤ c.toNat && c.toNat ≤ 90 then Char.ofNat (c.toNat + 32) else c

/-- Strip a class of characters from both ends of a character list. -/
def stripBoth (p : Char → Bool) (l : List Char) : List Char :=
  ((l.dropWhile p).reverse.dropWhile p).reverse

/-- Python `str.strip()` (no arguments): trim whitespace from both ends. -/
def pyStrip (s : String) : String :=
  String.mk (stripBoth pyIsSpace s.data)

def pySplitWsAux : List Char → List Char → List String
  | [], acc => if acc.isEmpty then [] else [String.mk acc.reverse]
  | c :: rest, acc =>
    if pyIsSpace c then
      if acc.isEmpty then pySplitWsAux rest []
      else String.mk acc.reverse :: pySplitWsAux rest []
    else pySplitWsAux rest (c :: acc)

/-- Python `str.split()` (no arguments): split on whitespace runs, dropping
empty pieces. -/
def pySplitWs (s : String) : List String :=
  pySplitWsAux s.data []

/-- Python `sep.join(parts)`. -/
def joinWith (sep : String) : List String → String
  | [] => ""
  | [x] => x
  | x :: y :: rest => x ++ sep ++ joinWith sep (y :: rest)

/-- Python `" ".join(words)`. -/
def joinWords (ws : List String) : String :=
  joinWith " " ws

/-- Python `str.startswith(pre)`. -/
def pyStartsWith (s pre : String) : Bool :=
  pre.data.isPrefixOf s.data

/-- Greedy prefix of `ws` whose space-joined length plus `phLen` fits in `width`
(`textwrap`'s drop-words-from-the-end strategy). -/
def shortenGo (width phLen : Nat) (cur : String) : List String → String
  | [] => cur
  | w :: rest =>
    let cand := if cur = "" then w else cur ++ " " ++ w
    if cand.length + phLen ≤ width then shortenGo width phLen cand rest else cur

/-- Python `textwrap.shorten(text, width, placeholder)`: collapse whitespace;
return the text if it fits, else the longest word-prefix plus the placeholder. -/
def textwrapShorten (text : String) (width : Nat) (placeholder : String) : String :=
  let t := joinWords (pySplitWs text)
  if t.length ≤ width then t
  else shortenGo width placeholder.length "" (pySplitWs text) ++ placeholder

/-! ## JSON values (the parsed bodies returned by `response.json()`) -/

inductive Json where
  | null
  | bool (b : Bool)
  | num (n : Int)
  | str (s : String)
  | arr (items : List Json)
  | obj (fields : List (String × Json))

/-- Python truthiness of a parsed JSON value. -/
def truthy : Json → Bool
  | .null => false
  | .bool b => b
  | .num n => n != 0
  | .str s => s != ""
  | .arr items => !items.isEmpty
  | .obj fields => !fields.isEmpty

-- Python `repr` of a parsed JSON value.
mutual
def pyRepr : Json → String
  | .null => "None"
  | .bool b => if b then "True" else "False"
  | .num n => toString n
  | .str s => "\x27" ++ s ++ "\x27"
  | .arr items => "[" ++ pyReprSeq items ++ "]"
  | .obj fields => "\x7b" ++ pyReprFields fields ++ "\x7d"

def pyReprSeq : List Json → String
  | [] => ""
  | [x] => pyRepr x
  | x :: y :: rest => pyRepr x ++ ", " ++ pyReprSeq (y :: rest)

def pyReprFields : List (String × Json) → String
  | [] => ""
  | [kv] => "\x27" ++ kv.1 ++ "\x27: " ++ pyRepr kv.2
  | kv :: kw :: rest => "\x27" ++ kv.1 ++ "\x27: " ++ pyRepr kv.2 ++ ", " ++ pyReprFields (kw :: rest)
end

/-- Python `str()` of a parsed JSON value (as used inside an f-string). -/
def pyStr : Json → String
  | .str s => s
  | j => pyRepr j

/-- Python `a or b` where `a` is the result of `dict.get` (`none` = key absent,
which is falsy `None`). -/
def pyOr (primary : Option Json) (fallback : Json) : Json :=
  match primary with
  | some v => if truthy v then v else fallback
  | none => fallback

/-- Python iteration (`enumerate(data)`): lists yield their items, strings their
characters, dicts their keys; other values are not iterable. -/
def iterItems : Json → Option (List Json)
  | .arr items => some items
  | .str s => some (s.data.map (fun c => Json.str (String.mk [c])))
  | .obj fields => some (fields.map (fun kv => Json.str kv.1))
  | _ => none

/-! ## `RAGSearchTool._format_results` (rag_search.py lines 117-150) -/

/-- `f"{score:.3f}" if isinstance(score, (float, int)) else "n/a"` (`bool` is an
`int` in Python; upstream numbers are modelled as integers). -/
def scoreText : Option Json → String
  | some (.num n) => toString n ++ ".000"
  | some (.bool b) => if b then "1.000" else "0.000"
  | _ => "n/a"

/-- Lines 138, 141: extract the body text and shorten it.  A truthy non-string
content value makes `page_content.split()` raise `AttributeError`. -/
def snippetOf (doc : List (String × Json)) : Except PyErr String :=
  match pyOr (doc.lookup "page_content") (pyOr (doc.lookup "content") (.str "")) with
  | .str s => .ok (textwrapShorten (joinWords (pySplitWs s)) 320 "...")
  | _ => .error (.attributeError "object has no attribute split")

/-- Line 139 and the `metadata.get` calls of line 142: `document.get("metadata")
or {}` must be a dict for `.get` to succeed. -/
def metadataOf (doc : List (String × Json)) : Except PyErr (List (String × Json)) :=
  match pyOr (doc.lookup "metadata") (.obj []) with
  | .obj fields => .ok fields
  | _ => .error (.attributeError "object has no attribute get")

/-- Lines 124-133: extract `(document, score)` from an entry, or `none` when the
entry has neither the list shape (length ≥ 1) nor the dict shape. -/
def documentAndScore : Json → Option (Json × Option Json)
  | .arr (d :: rest) => some (d, rest.head?)
  | .obj fields => some (pyOr (fields.lookup "document") (.obj fields), fields.lookup "score")
  | _ => none

/-- Lines 124-145 for one entry: `.ok none` when the entry is skipped
(`continue`), `.ok (some body)` with the text after the `"{idx}. "` prefix,
`.error` when the Python code raises. -/
def renderBody (item : Json) : Except PyErr (Option String) :=
  match documentAndScore item with
  | none => .ok none
  | some (document, score) =>
    match document with
    | .obj doc =>
      match snippetOf doc with
      | .error e => .error e
      | .ok snippet =>
        match metadataOf doc with
        | .error e => .error e
        | .ok metadata =>
          let source := pyOr (metadata.lookup "source")
            (pyOr (metadata.lookup "filename")
              (pyOr (metadata.lookup "file_id") (.str "unknown source")))
          .ok (some ("score=" ++ scoreText score ++ " source=" ++ pyStr source ++ ": " ++ snippet))
    | _ => .ok none

/-- The `for idx, item in enumerate(data, start=1)` loop: collect the formatted
lines, propagating the first raised exception. -/
def formatEntries : Nat → List Json → Except PyErr (List String)
  | _, [] => .ok []
  | idx, item :: rest =>
    match renderBody item with
    | .error e => .error e
    | .ok none => formatEntries (idx + 1) rest
    | .ok (some body) =>
      match formatEntries (idx + 1) rest with
      | .error e => .error e
      | .ok lines => .ok ((toString idx ++ ". " ++ body) :: lines)

def noContextMsg : String := "No relevant context found in the knowledge base."

/-- `RAGSearchTool._format_results`. -/
def formatResults (data : Json) : Except PyErr String :=
  if truthy data = false then .ok noContextMsg
  else
    match iterItems data with
    | none => .error (.typeError "object is not iterable")
    | some items =>
      match formatEntries 1 items with
      | .error e => .error e
      | .ok [] => .ok noContextMsg
      | .ok chunks => .ok (joinWith "\n" chunks)

/-! ## Settings and `RAGSearchTool.__init__` (rag_search.py lines 52-69) -/

/-- The configuration surface read by the two source files (read-only after
process start). -/
structure RawSettings where
  RAG_BASE_URL : String
  RAG_QUERY_ENDPOINT : String
  RAG_QUERY_MULTIPLE_ENDPOINT : String
  RAG_DEFAULT_FILE_IDS : List String
  RAG_TOP_K : Int
  RAG_ENTITY_ID : String
  RAG_TIMEOUT_SECONDS : Int
  RAG_JWT_SECRET : String
  RAG_JWT_ALGORITHM : String
  RAG_JWT_TTL_SECONDS : Int
  RAG_SERVICE_SUBJECT : String

/-- `RAGSearchTool._ensure_leading_slash`. -/
def ensureLeadingSlash (value : String) : String :=
  if value = "" then ""
  else if pyStartsWith value "/" then value else "/" ++ value

/-- Python `str.rstrip("/")`. -/
def rstripSlash (s : String) : String :=
  String.mk ((s.data.reverse.dropWhile (fun c => c == '/')).reverse)

/-- The derived fields computed once in `RAGSearchTool.__init__`. -/
structure ToolConfig where
  baseUrl : String
  queryEndpoint : String
  queryMultipleEndpoint : String
  defaultFileIds : List String
  defaultTopK : Int
  entityId : String
  timeout : Int
  jwtSecret : String
  jwtAlgorithm : String
  jwtTtlSeconds : Int
  serviceSubject : String

/-- `RAGSearchTool.__init__`: empty strings model unset optional settings. -/
def mkToolConfig (s : RawSettings) : ToolConfig :=
  ⟨rstripSlash s.RAG_BASE_URL,
   ensureLeadingSlash s.RAG_QUERY_ENDPOINT,
   ensureLeadingSlash s.RAG_QUERY_MULTIPLE_ENDPOINT,
   s.RAG_DEFAULT_FILE_IDS.filter (fun fid => fid != ""),
   max 1 s.RAG_TOP_K,
   s.RAG_ENTITY_ID,
   s.RAG_TIMEOUT_SECONDS,
   s.RAG_JWT_SECRET,
   s.RAG_JWT_ALGORITHM,
   max 10 s.RAG_JWT_TTL_SECONDS,
   if s.RAG_SERVICE_SUBJECT ≠ "" then s.RAG_SERVICE_SUBJECT else "agent_service"⟩

/-! ## Token issuers -/

/-- The claim set of a signed service credential. -/
structure JwtClaims where
  sub : String
  iat : Int
  exp : Int
deriving DecidableEq, Repr

/-- `_generate_rag_jwt` in documents.py (lines 44-61): the returned credential is
represented by its claim set; `signOk = false` models `jwt.encode` raising, in
which case the failure is logged and `None` is returned. -/
def ragJwtProxyClaims (secret : String) (ttlCfg : Int) (subjectCfg : String)
    (now : Int) (signOk : Bool) : Option JwtClaims :=
  if secret = "" then none
  else
    let expires := now + max 30 ttlCfg
    let payload : JwtClaims :=
      ⟨if subjectCfg ≠ "" then subjectCfg else "agent_service", now, expires⟩
    if signOk then some payload else none

/-- `RAGSearchTool._generate_jwt` (rag_search.py lines 71-87); subject and TTL
were already resolved in `__init__`. -/
def toolGenerateJwt (cfg : ToolConfig) (now : Int) (signOk : Bool) : Option JwtClaims :=
  if cfg.jwtSecret = "" then none
  else
    let payload : JwtClaims := ⟨cfg.serviceSubject, now, now + cfg.jwtTtlSeconds⟩
    if signOk then some payload else none

/-! ## `RAGSearchTool._compose_payload` (rag_search.py lines 95-115) -/

/-- The JSON body of the outbound query request (absent keys are `none`). -/
structure QueryPayload where
  query : String
  k : Int
  file_id : Option String
  file_ids : Option (List String)
  entity_id : Option String
deriving DecidableEq, Repr

/-- `entity_id or self._entity_id` (both falsy when the empty string). -/
def resolveEntity (entityId : Option String) (cfgEntity : String) : String :=
  match entityId with
  | some e => if e ≠ "" then e else cfgEntity
  | none => cfgEntity

/-- `RAGSearchTool._compose_payload`: returns `(endpoint, payload)`. -/
def composePayload (cfg : ToolConfig) (query : String) (fileIds : List String)
    (topK : Int) (entityId : Option String) : String × QueryPayload :=
  let isMultiple := decide (1 < fileIds.length)
  let endpoint := if isMultiple then cfg.queryMultipleEndpoint else cfg.queryEndpoint
  let withIds : QueryPayload :=
    if isMultiple then ⟨query, topK, none, some fileIds, none⟩
    else ⟨query, topK, fileIds.head?, none, none⟩
  let resolved := resolveEntity entityId cfg.entityId
  let payload :=
    if resolved ≠ "" then
      (⟨withIds.query, withIds.k, withIds.file_id, withIds.file_ids, some resolved⟩ : QueryPayload)
    else withIds
  (endpoint, payload)

/-! ## `RAGSearchTool._arun` (rag_search.py lines 155-220) -/

def queryRequiredMsg : String := "A search query is required to use the knowledge base."

def noFileIdsMsg : String :=
  "No file identifiers were provided or configured for the RAG knowledge base. " ++
  "Add file IDs via `file_ids` argument or configure `RAG_DEFAULT_FILE_IDS`."

/-- `file_ids or self._default_file_ids`, then drop falsy (empty) entries. -/
def resolvedFileIds (fileIds : Option (List String)) (defaultIds : List String) : List String :=
  (match fileIds with
   | some l => if l.isEmpty then defaultIds else l
   | none => defaultIds).filter (fun fid => fid != "")

/-- `top_k or self._default_top_k` (an explicit 0 is falsy), then the `< 1`
floor of lines 174-175. -/
def resolveTopK (topK : Option Int) (defaultTopK : Int) : Int :=
  let resolved :=
    match topK with
    | some k => if k = 0 then defaultTopK else k
    | none => defaultTopK
  if resolved < 1 then 1 else resolved

/-- What `_arun` does before touching the network: either an early string
return, or one outbound request (method, url, endpoint, JSON body). -/
inductive ToolStep where
  | earlyReturn (message : String)
  | sendRequest (method url endpoint : String) (payload : QueryPayload)
deriving DecidableEq, Repr

/-- Lines 162-185 of `_arun`: input validation and request construction. -/
def arunStep (cfg : ToolConfig) (query : String) (fileIds : Option (List String))
    (topK : Option Int) (entityId : Option String) : ToolStep :=
  if pyStrip query = "" then .earlyReturn queryRequiredMsg
  else
    let resolved := resolvedFileIds fileIds cfg.defaultFileIds
    if resolved.isEmpty then .earlyReturn noFileIdsMsg
    else
      let resolvedTopK := resolveTopK topK cfg.defaultTopK
      let ep := composePayload cfg (pyStrip query) resolved resolvedTopK entityId
      .sendRequest "POST" (cfg.baseUrl ++ ep.1) ep.1 ep.2

/-- Outcome of the awaited `client.post` + `raise_for_status` + `response.json()`
sequence, as classified by the four `except` clauses of `_arun`. -/
inductive HttpOutcome where
  | statusError (statusCode : Nat) (text : String)
  | timeout
  | networkError (msg : String)
  | okMalformed
  | okJson (body : Json)

/-- `RAGSearchTool._arun` in full: the HTTP outcome is passed explicitly.  The
result is `.error` exactly when the Python coroutine raises to its caller. -/
def arun (cfg : ToolConfig) (query : String) (fileIds : Option (List String))
    (topK : Option Int) (entityId : Option String) (outcome : HttpOutcome) :
    Except PyErr String :=
  match arunStep cfg query fileIds topK entityId with
  | .earlyReturn m => .ok m
  | .sendRequest _ _ _ _ =>
    match outcome with
    | .statusError code _ =>
      .ok ("RAG search failed with status " ++ toString code ++
        ". Verify the file identifiers and query parameters.")
    | .timeout => .ok "RAG search timed out. Please try again with a simpler query."
    | .networkError msg => .ok ("RAG search failed due to a network error: " ++ msg)
    | .okMalformed => .ok "RAG search returned an unexpected response format."
    | .okJson body => formatResults body

/-! ## `_normalize_file_id` (documents.py lines 29-41) -/

/-- The character class of the regex `[a-z0-9_\-]`. -/
def idChar (c : Char) : Bool :=
  (97 ≤ c.toNat && c.toNat ≤ 122) || (48 ≤ c.toNat && c.toNat ≤ 57) || c == '_' || c == '-'

/-- `re.sub(r"[^a-z0-9_\-]", "_", cleaned)`. -/
def substCls (l : List Char) : List Char :=
  l.map (fun c => if idChar c then c else '_')

/-- `re.sub(r"_+", "_", cleaned)`: collapse each run of underscores to one
(keeping the last underscore of each run leaves the same characters). -/
def collapseU : List Char → List Char
  | [] => []
  | [c] => [c]
  | a :: b :: rest =>
    if a == '_' && b == '_' then collapseU (b :: rest)
    else a :: collapseU (b :: rest)

/-- `.strip("_")`. -/
def stripU (l : List Char) : List Char :=
  stripBoth (fun c => c == '_') l

/-- Lines 32-34: `value.strip().lower()`, substitute, collapse, strip. -/
def cleanFileId (s : String) : String :=
  String.mk (stripU (collapseU (substCls ((stripBoth pyIsSpace s.data).map pyLowerChar))))

/-- Lines 38-41: first configured default, else `"doc_" + uuid4().hex[:8]`. -/
def normalizeFallback (defaults : List String) (tag : String) : String :=
  match defaults with
  | d :: _ => d
  | [] => "doc_" ++ tag

/-- `_normalize_file_id`.  `value = none` models `None`; `defaults` is
`settings.RAG_DEFAULT_FILE_IDS`; `tag` is the fresh `uuid.uuid4().hex[:8]`
value consumed when both fallbacks above it are unavailable. -/
def normalizeFileId (value : Option String) (defaults : List String) (tag : String) : String :=
  match value with
  | some v =>
    if v ≠ "" then
      if cleanFileId v ≠ "" then cleanFileId v else normalizeFallback defaults tag
    else normalizeFallback defaults tag
  | none => normalizeFallback defaults tag

/-! ## `_rag_request` (documents.py lines 71-96) -/

/-- Exceptions that can escape `_rag_request`: the deliberately raised
`HTTPException`, or an uncaught library exception. -/
inductive ProxyExc where
  | httpException (statusCode : Nat) (detail : String)
  | transportError (msg : String)
  | jsonDecodeError (msg : String)
deriving DecidableEq, Repr

/-- A successfully returned upstream body: parsed JSON, or raw text when the
content type is not JSON. -/
inductive RagValue where
  | json (body : Json)
  | text (s : String)

/-- Outcome of `client.request(...)`: a raised transport error (timeout,
connection failure), or a response with status, text, reason phrase, declared
content type and — when the body is valid JSON — its parsed form. -/
inductive ProxyOutcome where
  | transportFailure (msg : String)
  | response (statusCode : Nat) (text reasonPhrase contentType : String) (parsedJson : Option Json)

/-- `_rag_request` applied to one outcome.  `.error` is an exception escaping
the function (an `HTTPException` for upstream ≥ 400 statuses, a re-raised
library error otherwise). -/
def ragRequest : ProxyOutcome → Except ProxyExc RagValue
  | .transportFailure msg => .error (.transportError msg)
  | .response statusCode text reasonPhrase contentType parsedJson =>
    if 400 ≤ statusCode then
      .error (.httpException statusCode
        ("RAG request failed: " ++ (if text ≠ "" then text else reasonPhrase)))
    else if pyStartsWith contentType "application/json" then
      match parsedJson with
      | some j => .ok (.json j)
      | none => .error (.jsonDecodeError "Expecting value")
    else .ok (.text text)

/-- Modelled from the spec: the HTTP application layer that hosts these
endpoints is not under src/ (only the route handlers are).  Per the spec, an
`HTTPException` escaping a handler becomes an HTTP error response carrying its
status code and detail message, and any other escaping failure converts to an
HTTP error response with a generic failure status (500). -/
def endpointErrorResponse : ProxyExc → Nat × String
  | .httpException statusCode detail => (statusCode, detail)
  | .transportError _ => (500, "Internal Server Error")
  | .jsonDecodeError _ => (500, "Internal Server Error")

/-- The outcomes that count as RAG Client failures on the proxy path: an
upstream error status, a transport failure, or a JSON-declared body that does
not parse. -/
def outcomeFails : ProxyOutcome → Bool
  | .transportFailure _ => true
  | .response statusCode _ _ contentType parsedJson =>
    400 ≤ statusCode || (pyStartsWith contentType "application/json" && parsedJson.isNone)

/-! ## Concrete example configuration used in counterexamples and witnesses -/

def rawEx : RawSettings :=
  ⟨"http://rag", "/query", "/query_multiple", ["doc1"], 5, "", 30, "secret", "HS256", 60, ""⟩

def cfgEx : ToolConfig := mkToolConfig rawEx

/-- Helper: the `k` field of the outbound body of a step, when one is sent. -/
def stepK : ToolStep → Option Int
  | .earlyReturn _ => none
  | .sendRequest _ _ _ payload => some payload.k

/-- C1: a successful upstream response whose parsed JSON body is the integer
`5` (truthy but not iterable) makes `_arun` raise `TypeError` out of
`_format_results` instead of returning a string. -/
theorem arun_raises_on_integer_json_body :
    arun cfgEx "q" (some ["doc1"]) none none (HttpOutcome.okJson (Json.num 5)) =
      Except.error (PyErr.typeError "object is not iterable") := by
  rfl

/-- C6: an entry whose document is a dict with a truthy non-string
`page_content` (here the integer 42) makes `_format_results` raise
`AttributeError` instead of returning the joined lines or the fallback. -/
theorem format_results_raises_on_numeric_content :
    formatResults (Json.arr [Json.obj [("page_content", Json.num 42)]]) =
      Except.error (PyErr.attributeError "object has no attribute split") := by
  rfl

/-- C2 counterexample: with the configured default top_k 5, an explicit
`top_k = 0` is falsy in `top_k or self._default_top_k`, so the `k` sent is the
default 5, not the claimed 1. -/
theorem resolveTopK_zero_not_clamped_to_one :
    stepK (arunStep cfgEx "q" (some ["a"]) (some 0) none) = some 5 ∧
    stepK (arunStep cfgEx "q" (some ["a"]) (some 0) none) ≠ some 1 := by
  exact ⟨rfl, by decide⟩

/-- The regex `^[a-z0-9_-]+$` of the claim: non-empty and only class characters. -/
def matchesIdPattern (s : String) : Bool :=
  !s.data.isEmpty && s.data.all idChar

/-- C4 counterexample: when the configured default list holds the empty string,
an input that cleans to nothing falls back to that default unchanged, and the
normalizer returns the empty string — neither non-empty nor matching the
pattern. -/
theorem normalize_fallback_pattern_counterexample :
    normalizeFileId (some "???") [""] "0123abcd" = "" ∧
    matchesIdPattern (normalizeFileId (some "???") [""] "0123abcd") = false := by
  exact ⟨rfl, rfl⟩

/-- Adjacent separator characters (`_` or `-`), as the claim forbids. -/
def specNoRepeatedSeparators : List Char → Bool
  | [] => true
  | [_] => true
  | a :: b :: rest =>
    !((a == '_' || a == '-') && (b == '_' || b == '-')) &&
      specNoRepeatedSeparators (b :: rest)

/-- C5 counterexample: the normalizer collapses and strips only underscores.
Hyphens pass through untouched, so `"a--b"` normalizes to itself and the
output contains the repeated separator `--`. -/
theorem normalize_repeated_dash_counterexample :
    normalizeFileId (some "a--b") [] "00000000" = "a--b" ∧
    specNoRepeatedSeparators (normalizeFileId (some "a--b") [] "00000000").data = false := by
  exact ⟨rfl, rfl⟩

/-! ## Canonical-form lemmas for the identifier normalizer -/

/-- No two adjacent underscores. -/
def noDoubleU : List Char → Bool
  | [] => true
  | [_] => true
  | a :: b :: rest => !(a == '_' && b == '_') && noDoubleU (b :: rest)

/-- The shape `_normalize_file_id` guarantees for a non-empty cleaned result:
class characters only, no repeated underscore, no underscore at either end. -/
def canonicalChars (l : List Char) : Bool :=
  l.all idChar && noDoubleU l &&
    decide (l.head? ≠ some '_') && decide (l.reverse.head? ≠ some '_')

/-- Lowercase hexadecimal digits, the alphabet of `uuid.uuid4().hex`. -/
def hexLowerChar (c : Char) : Bool :=
  (48 ≤ c.toNat && c.toNat ≤ 57) || (97 ≤ c.toNat && c.toNat ≤ 102)

/-- Configured defaults that are themselves well-formed identifiers. -/
def goodDefaults (defaults : List String) : Bool :=
  defaults.all (fun d => d != "" && canonicalChars d.data)

/-- A well-formed generated tag: non-empty, lowercase hex. -/
def goodTag (tag : String) : Bool :=
  tag != "" && tag.data.all hexLowerChar

theorem data_mk (l : List Char) : (String.mk l).data = l := rfl

theorem mk_data (s : String) : String.mk s.data = s := rfl

theorem pyLowerChar_of_idChar (c : Char) (h : idChar c = true) : pyLowerChar c = c := by
  have hc : c.toNat < 65 ∨ 90 < c.toNat := by
    simp only [idChar, Bool.or_eq_true, Bool.and_eq_true, decide_eq_true_eq, beq_iff_eq] at h
    rcases h with ((⟨h1, _⟩ | ⟨_, h2⟩) | h1) | h1
    · right; omega
    · left; omega
    · subst h1; right; decide
    · subst h1; left; decide
  have hb : ¬((65 ≤ c.toNat && c.toNat ≤ 90) = true) := by
    simp only [Bool.and_eq_true, decide_eq_true_eq]
    rintro ⟨h1, h2⟩
    omega
  unfold pyLowerChar
  rw [if_neg hb]

theorem idChar_not_space (c : Char) (h : idChar c = true) : pyIsSpace c = false := by
  have hge : 45 ≤ c.toNat := by
    simp only [idChar, Bool.or_eq_true, Bool.and_eq_true, decide_eq_true_eq, beq_iff_eq] at h
    rcases h with ((⟨h1, _⟩ | ⟨h1, _⟩) | h1) | h1
    · omega
    · omega
    · subst h1; decide
    · subst h1; decide
  cases hps : pyIsSpace c with
  | false => rfl
  | true =>
    exfalso
    simp only [pyIsSpace, Bool.or_eq_true, beq_iff_eq] at hps
    rcases hps with ((((h1 | h1) | h1) | h1) | h1) | h1 <;>
      (subst h1; exact absurd hge (by decide))

theorem idChar_of_hex (c : Char) (h : hexLowerChar c = true) :
    idChar c = true ∧ (c == '_') = false := by
  simp only [hexLowerChar, Bool.or_eq_true, Bool.and_eq_true, decide_eq_true_eq] at h
  constructor
  · simp only [idChar, Bool.or_eq_true, Bool.and_eq_true, decide_eq_true_eq]
    rcases h with (⟨h1, h2⟩ | ⟨h1, h2⟩)
    · left; left; right; exact ⟨h1, h2⟩
    · left; left; left; exact ⟨h1, by omega⟩
  · rw [beq_eq_false_iff_ne]
    intro he
    subst he
    revert h
    decide

theorem all_of_subset {p : Char → Bool} {l l' : List Char}
    (hsub : ∀ c, c ∈ l' → c ∈ l) (h : l.all p = true) : l'.all p = true := by
  rw [List.all_eq_true] at h ⊢
  exact fun c hc => h c (hsub c hc)

theorem substCls_all (l : List Char) : (substCls l).all idChar = true := by
  rw [List.all_eq_true]
  intro c hc
  simp only [substCls, List.mem_map] at hc
  obtain ⟨a, _, ha⟩ := hc
  by_cases hid : idChar a = true
  · rw [if_pos hid] at ha; rw [← ha]; exact hid
  · rw [if_neg hid] at ha; rw [← ha]; decide

theorem collapseU_head? (l : List Char) : (collapseU l).head? = l.head? := by
  induction l using collapseU.induct with
  | case1 => rfl
  | case2 c => rfl
  | case3 a b rest h ih =>
    rw [collapseU, if_pos h, ih]
    simp only [List.head?_cons]
    rw [Bool.and_eq_true, beq_iff_eq, beq_iff_eq] at h
    rw [h.1, h.2]
  | case4 a b rest h ih =>
    rw [collapseU, if_neg h]
    rfl

theorem collapseU_subset (l : List Char) : ∀ c, c ∈ collapseU l → c ∈ l := by
  induction l using collapseU.induct with
  | case1 => intro c hc; exact hc
  | case2 c => intro x hx; exact hx
  | case3 a b rest h ih =>
    intro c hc
    rw [collapseU, if_pos h] at hc
    exact List.mem_cons_of_mem a (ih c hc)
  | case4 a b rest h ih =>
    intro c hc
    rw [collapseU, if_neg h] at hc
    rcases List.mem_cons.mp hc with h1 | h1
    · rw [h1]; exact List.mem_cons_self a (b :: rest)
    · exact List.mem_cons_of_mem a (ih c h1)

theorem collapseU_ne_nil (l : List Char) (h : l ≠ []) : collapseU l ≠ [] := by
  induction l using collapseU.induct with
  | case1 => exact absurd rfl h
  | case2 c => simp [collapseU]
  | case3 a b rest hab ih =>
    rw [collapseU, if_pos hab]
    exact ih (by simp)
  | case4 a b rest hab ih =>
    rw [collapseU, if_neg hab]
    simp

theorem noDoubleU_collapseU (l : List Char) : noDoubleU (collapseU l) = true := by
  induction l using collapseU.induct with
  | case1 => rfl
  | case2 c => rfl
  | case3 a b rest h ih =>
    rw [collapseU, if_pos h]
    exact ih
  | case4 a b rest h ih =>
    rw [collapseU, if_neg h]
    have hne : collapseU (b :: rest) ≠ [] := collapseU_ne_nil _ (by simp)
    obtain ⟨x, xs, hx⟩ := List.exists_cons_of_ne_nil hne
    have hxb : x = b := by
      have := collapseU_head? (b :: rest)
      rw [hx] at this
      simp only [List.head?_cons] at this
      exact Option.some.inj this
    rw [hx]
    rw [noDoubleU, Bool.and_eq_true]
    constructor
    · rw [hxb, Bool.not_eq_true']
      exact Bool.eq_false_iff.mpr h
    · rw [← hx]; exact ih

theorem noDoubleU_tail (a : Char) (l : List Char) (h : noDoubleU (a :: l) = true) :
    noDoubleU l = true := by
  cases l with
  | nil => rfl
  | cons b rest =>
    rw [noDoubleU, Bool.and_eq_true] at h
    exact h.2

theorem collapseU_eq_self (l : List Char) (h : noDoubleU l = true) : collapseU l = l := by
  induction l using collapseU.induct with
  | case1 => rfl
  | case2 c => rfl
  | case3 a b rest hab ih =>
    exfalso
    rw [noDoubleU, Bool.and_eq_true] at h
    rw [hab] at h
    simp at h
  | case4 a b rest hab ih =>
    rw [collapseU, if_neg hab, ih (noDoubleU_tail a _ h)]

theorem dropWhile_subset (p : Char → Bool) (l : List Char) :
    ∀ c, c ∈ l.dropWhile p → c ∈ l := by
  induction l with
  | nil => intro c hc; exact hc
  | cons a t ih =>
    intro c hc
    rw [List.dropWhile_cons] at hc
    by_cases hp : p a = true
    · rw [if_pos hp] at hc
      exact List.mem_cons_of_mem a (ih c hc)
    · rw [if_neg hp] at hc
      exact hc

theorem head?_dropWhile_ne (p : Char → Bool) (l : List Char) (c : Char)
    (h : (l.dropWhile p).head? = some c) : p c = false := by
  induction l with
  | nil => simp at h
  | cons a t ih =>
    rw [List.dropWhile_cons] at h
    by_cases hp : p a = true
    · rw [if_pos hp] at h; exact ih h
    · rw [if_neg hp] at h
      simp only [List.head?_cons] at h
      rw [← Option.some.inj h]
      exact Bool.not_eq_true _ ▸ (Bool.eq_false_iff.mpr hp)

theorem exists_prefix_dropWhile (p : Char → Bool) (l : List Char) :
    ∃ t, t ++ l.dropWhile p = l := by
  induction l with
  | nil => exact ⟨[], rfl⟩
  | cons a t ih =>
    rw [List.dropWhile_cons]
    by_cases hp : p a = true
    · rw [if_pos hp]
      obtain ⟨s, hs⟩ := ih
      exact ⟨a :: s, by rw [List.cons_append, hs]⟩
    · rw [if_neg hp]
      exact ⟨[], rfl⟩

theorem noDoubleU_append_left (l₁ l₂ : List Char)
    (h : noDoubleU (l₁ ++ l₂) = true) : noDoubleU l₁ = true := by
  induction l₁ using noDoubleU.induct with
  | case1 => rfl
  | case2 c => rfl
  | case3 a b rest ih =>
    rw [List.cons_append, List.cons_append] at h
    rw [noDoubleU, Bool.and_eq_true] at h ⊢
    refine ⟨h.1, ih ?_⟩
    rw [List.cons_append]
    exact h.2

theorem noDoubleU_dropWhile (p : Char → Bool) (l : List Char)
    (h : noDoubleU l = true) : noDoubleU (l.dropWhile p) = true := by
  induction l with
  | nil => rfl
  | cons a t ih =>
    rw [List.dropWhile_cons]
    by_cases hp : p a = true
    · rw [if_pos hp]
      exact ih (noDoubleU_tail a t h)
    · rw [if_neg hp]
      exact h

theorem stripBoth_subset (p : Char → Bool) (l : List Char) :
    ∀ c, c ∈ stripBoth p l → c ∈ l := by
  intro c hc
  unfold stripBoth at hc
  rw [List.mem_reverse] at hc
  have h2 := dropWhile_subset p (l.dropWhile p).reverse c hc
  rw [List.mem_reverse] at h2
  exact dropWhile_subset p l c h2

theorem mem_of_head?_eq (l : List Char) (c : Char) (h : l.head? = some c) : c ∈ l := by
  cases l with
  | nil => simp at h
  | cons a t =>
    simp only [List.head?_cons] at h
    rw [← Option.some.inj h]
    exact List.mem_cons_self a t

theorem stripU_canonical (m : List Char)
    (hall : m.all idChar = true) (hnd : noDoubleU m = true) :
    canonicalChars (stripU m) = true := by
  have hrrev : (stripU m).reverse =
      (m.dropWhile (fun c => c == '_')).reverse.dropWhile (fun c => c == '_') := by
    unfold stripU stripBoth
    rw [List.reverse_reverse]
  obtain ⟨t, ht⟩ :=
    exists_prefix_dropWhile (fun c => c == '_') (m.dropWhile (fun c => c == '_')).reverse
  rw [← hrrev] at ht
  have hsplit : stripU m ++ t.reverse = m.dropWhile (fun c => c == '_') := by
    have h3 := congrArg List.reverse ht
    rw [List.reverse_append, List.reverse_reverse, List.reverse_reverse] at h3
    exact h3
  simp only [canonicalChars, Bool.and_eq_true, decide_eq_true_eq]
  refine ⟨⟨⟨?_, ?_⟩, ?_⟩, ?_⟩
  · exact all_of_subset (stripBoth_subset _ m) hall
  · apply noDoubleU_append_left (stripU m) t.reverse
    rw [hsplit]
    exact noDoubleU_dropWhile _ m hnd
  · intro hhead
    cases hr : stripU m with
    | nil => rw [hr] at hhead; simp at hhead
    | cons x xs =>
      rw [hr] at hhead
      simp only [List.head?_cons] at hhead
      have hx : x = '_' := Option.some.inj hhead
      have hm : (m.dropWhile (fun c => c == '_')).head? = some x := by
        rw [← hsplit, hr]
        rfl
      have h4 := head?_dropWhile_ne (fun c => c == '_') m x hm
      rw [hx] at h4
      simp at h4
  · intro hlast
    cases hrv : (stripU m).reverse with
    | nil => rw [hrv] at hlast; simp at hlast
    | cons y ys =>
      rw [hrv] at hlast
      simp only [List.head?_cons] at hlast
      have hy : y = '_' := Option.some.inj hlast
      have h5 : (fun c => c == '_') y = false := by
        apply head?_dropWhile_ne (fun c => c == '_') (m.dropWhile (fun c => c == '_')).reverse y
        rw [← hrrev, hrv]
        rfl
      rw [hy] at h5
      simp at h5

theorem canonicalChars_cleanFileId (s : String) :
    canonicalChars (cleanFileId s).data = true := by
  unfold cleanFileId
  rw [data_mk]
  apply stripU_canonical
  · exact all_of_subset (collapseU_subset _) (substCls_all _)
  · exact noDoubleU_collapseU _

theorem map_self_of (f : Char → Char) (l : List Char) (h : ∀ c ∈ l, f c = c) :
    l.map f = l := by
  induction l with
  | nil => rfl
  | cons a t ih =>
    rw [List.map_cons, h a (List.mem_cons_self a t),
      ih (fun c hc => h c (List.mem_cons_of_mem a hc))]

theorem stripBoth_eq_self (p : Char → Bool) (l : List Char)
    (h1 : ∀ c, l.head? = some c → p c = false)
    (h2 : ∀ c, l.reverse.head? = some c → p c = false) :
    stripBoth p l = l := by
  have hd : l.dropWhile p = l := by
    cases l with
    | nil => rfl
    | cons a t =>
      have hpa : ¬(p a = true) := by rw [h1 a rfl]; simp
      rw [List.dropWhile_cons, if_neg hpa]
  unfold stripBoth
  rw [hd]
  have hd2 : l.reverse.dropWhile p = l.reverse := by
    cases hrv : l.reverse with
    | nil => rfl
    | cons a t =>
      have hpa : ¬(p a = true) := by rw [h2 a (by rw [hrv]; rfl)]; simp
      rw [List.dropWhile_cons, if_neg hpa]
  rw [hd2, List.reverse_reverse]

theorem cleanFileId_of_canonical (l : List Char) (h : canonicalChars l = true) :
    cleanFileId (String.mk l) = String.mk l := by
  simp only [canonicalChars, Bool.and_eq_true, decide_eq_true_eq] at h
  obtain ⟨⟨⟨hall, hnd⟩, hh⟩, hl⟩ := h
  rw [List.all_eq_true] at hall
  unfold cleanFileId
  rw [data_mk]
  have hsp : stripBoth pyIsSpace l = l := by
    apply stripBoth_eq_self
    · intro c hc
      exact idChar_not_space c (hall c (mem_of_head?_eq l c hc))
    · intro c hc
      apply idChar_not_space
      apply hall
      have hmem := mem_of_head?_eq l.reverse c hc
      rw [List.mem_reverse] at hmem
      exact hmem
  rw [hsp]
  have hlow : l.map pyLowerChar = l :=
    map_self_of _ _ (fun c hc => pyLowerChar_of_idChar c (hall c hc))
  rw [hlow]
  have hsub : substCls l = l := by
    unfold substCls
    exact map_self_of _ _ (fun c hc => if_pos (hall c hc))
  rw [hsub, collapseU_eq_self l hnd]
  unfold stripU
  refine congrArg String.mk ?_
  apply stripBoth_eq_self
  · intro c hc
    rw [beq_eq_false_iff_ne]
    intro he
    subst he
    exact hh hc
  · intro c hc
    rw [beq_eq_false_iff_ne]
    intro he
    subst he
    exact hl hc

theorem data_ne_nil (s : String) (h : s ≠ "") : s.data ≠ [] := by
  intro hcon
  apply h
  cases s with
  | mk d =>
    rw [data_mk] at hcon
    subst hcon
    rfl

theorem noDoubleU_of_no_underscore (l : List Char)
    (h : ∀ c ∈ l, (c == '_') = false) : noDoubleU l = true := by
  induction l using noDoubleU.induct with
  | case1 => rfl
  | case2 c => rfl
  | case3 a b rest ih =>
    rw [noDoubleU, Bool.and_eq_true]
    constructor
    · rw [h a (List.mem_cons_self a _)]
      rfl
    · exact ih (fun c hc => h c (List.mem_cons_of_mem a hc))

theorem docTag_canonical (tag : String) (h1 : tag ≠ "")
    (h2 : tag.data.all hexLowerChar = true) :
    ("doc_" ++ tag) ≠ "" ∧ canonicalChars ("doc_" ++ tag).data = true := by
  have hne : tag.data ≠ [] := data_ne_nil tag h1
  have hdata : ("doc_" ++ tag).data = 'd' :: 'o' :: 'c' :: '_' :: tag.data := rfl
  rw [List.all_eq_true] at h2
  have hhex : ∀ c ∈ tag.data, (c == '_') = false := fun c hc => (idChar_of_hex c (h2 c hc)).2
  constructor
  · intro hcon
    have := congrArg String.data hcon
    rw [hdata] at this
    simp at this
  · rw [hdata]
    simp only [canonicalChars, Bool.and_eq_true, decide_eq_true_eq]
    refine ⟨⟨⟨?_, ?_⟩, ?_⟩, ?_⟩
    · simp only [List.all_cons, Bool.and_eq_true]
      refine ⟨by decide, by decide, by decide, by decide, ?_⟩
      rw [List.all_eq_true]
      exact fun c hc => (idChar_of_hex c (h2 c hc)).1
    · rw [noDoubleU, Bool.and_eq_true]
      refine ⟨by decide, ?_⟩
      rw [noDoubleU, Bool.and_eq_true]
      refine ⟨by decide, ?_⟩
      rw [noDoubleU, Bool.and_eq_true]
      refine ⟨by decide, ?_⟩
      cases htd : tag.data with
      | nil => rfl
      | cons t0 tr =>
        rw [noDoubleU, Bool.and_eq_true]
        constructor
        · have h3 : (t0 == '_') = false := hhex t0 (by rw [htd]; exact List.mem_cons_self _ _)
          rw [h3]
          decide
        · apply noDoubleU_of_no_underscore
          intro c hc
          exact hhex c (by rw [htd]; exact hc)
    · simp
    · rw [show ('d' :: 'o' :: 'c' :: '_' :: tag.data) = ['d', 'o', 'c', '_'] ++ tag.data from rfl]
      rw [List.reverse_append]
      cases htd : tag.data.reverse with
      | nil =>
        exfalso
        exact hne (List.reverse_eq_nil_iff.mp htd)
      | cons y ys =>
        simp only [List.cons_append, List.head?_cons]
        intro hcon
        have hy : y = '_' := Option.some.inj hcon
        have hymem : y ∈ tag.data := by
          rw [← List.mem_reverse, htd]
          exact List.mem_cons_self y ys
        have := hhex y hymem
        rw [hy] at this
        simp at this

theorem normalizeFallback_canonical (defaults : List String) (tag : String)
    (hdef : goodDefaults defaults = true) (htag : goodTag tag = true) :
    normalizeFallback defaults tag ≠ "" ∧
    canonicalChars (normalizeFallback defaults tag).data = true := by
  have htag' : tag ≠ "" ∧ tag.data.all hexLowerChar = true := by
    simp only [goodTag, Bool.and_eq_true, bne_iff_ne, ne_eq] at htag
    exact htag
  cases defaults with
  | nil => exact docTag_canonical tag htag'.1 htag'.2
  | cons d rest =>
    simp only [goodDefaults, List.all_cons, Bool.and_eq_true, bne_iff_ne, ne_eq] at hdef
    exact ⟨hdef.1.1, hdef.1.2⟩

theorem normalizeFileId_canonical (value : Option String) (defaults : List String) (tag : String)
    (hdef : goodDefaults defaults = true) (htag : goodTag tag = true) :
    normalizeFileId value defaults tag ≠ "" ∧
    canonicalChars (normalizeFileId value defaults tag).data = true := by
  have hfb := normalizeFallback_canonical defaults tag hdef htag
  cases value with
  | none => exact hfb
  | some v =>
    rw [normalizeFileId]
    by_cases hv : v ≠ ""
    · rw [if_pos hv]
      by_cases hc : cleanFileId v ≠ ""
      · rw [if_pos hc]
        exact ⟨hc, canonicalChars_cleanFileId v⟩
      · rw [if_neg hc]
        exact hfb
    · rw [if_neg hv]
      exact hfb

/-- C4 (amended): provided every configured default identifier is non-empty and
canonical, and the generated tag is non-empty lowercase hex (as `uuid4().hex`
guarantees), the normalizer returns a non-empty string matching `^[a-z0-9_-]+$`
and is idempotent. -/
theorem normalize_pattern_idempotent (value : Option String) (defaults : List String)
    (tag : String) (hdef : goodDefaults defaults = true) (htag : goodTag tag = true) :
    matchesIdPattern (normalizeFileId value defaults tag) = true ∧
    normalizeFileId (some (normalizeFileId value defaults tag)) defaults tag =
      normalizeFileId value defaults tag := by
  obtain ⟨hne, hcanon⟩ := normalizeFileId_canonical value defaults tag hdef htag
  constructor
  · simp only [matchesIdPattern, Bool.and_eq_true]
    constructor
    · have hd := data_ne_nil _ hne
      cases hl : (normalizeFileId value defaults tag).data with
      | nil => exact absurd hl hd
      | cons a t => rfl
    · simp only [canonicalChars, Bool.and_eq_true] at hcanon
      exact hcanon.1.1.1
  · have hfix : cleanFileId (normalizeFileId value defaults tag) =
        normalizeFileId value defaults tag := by
      have h2 := cleanFileId_of_canonical (normalizeFileId value defaults tag).data hcanon
      rw [mk_data] at h2
      exact h2
    conv_lhs => rw [normalizeFileId]
    rw [if_pos hne, hfix, if_pos hne]

/-- C4 witness. -/
theorem normalize_pattern_idempotent_witness :
    matchesIdPattern (normalizeFileId (some "  Hello World! ") ["kb"] "0123abcd") = true ∧
    normalizeFileId (some (normalizeFileId (some "  Hello World! ") ["kb"] "0123abcd"))
        ["kb"] "0123abcd" =
      normalizeFileId (some "  Hello World! ") ["kb"] "0123abcd" :=
  normalize_pattern_idempotent (some "  Hello World! ") ["kb"] "0123abcd"
    (by decide) (by decide)

/-- C5 (amended): only `_` is a separator for the normalizer: the output never
contains two adjacent underscores and never begins or ends with one (hyphens
pass through verbatim, see the counterexample). -/
theorem normalize_underscore_separators (value : Option String) (defaults : List String)
    (tag : String) (hdef : goodDefaults defaults = true) (htag : goodTag tag = true) :
    noDoubleU (normalizeFileId value defaults tag).data = true ∧
    (normalizeFileId value defaults tag).data.head? ≠ some '_' ∧
    (normalizeFileId value defaults tag).data.reverse.head? ≠ some '_' := by
  obtain ⟨-, hcanon⟩ := normalizeFileId_canonical value defaults tag hdef htag
  simp only [canonicalChars, Bool.and_eq_true, decide_eq_true_eq] at hcanon
  exact ⟨hcanon.1.1.2, hcanon.1.2, hcanon.2⟩

/-- C5 witness. -/
theorem normalize_underscore_separators_witness :
    noDoubleU (normalizeFileId (some " A__b_ ") [] "0123abcd").data = true ∧
    (normalizeFileId (some " A__b_ ") [] "0123abcd").data.head? ≠ some '_' ∧
    (normalizeFileId (some " A__b_ ") [] "0123abcd").data.reverse.head? ≠ some '_' :=
  normalize_underscore_separators (some " A__b_ ") [] "0123abcd" (by decide) (by decide)

/-! ## Claim theorems about the search tool -/

theorem floor_one_eq_max (d : Int) : (if d < 1 then 1 else d) = max 1 d := by
  rcases lt_or_le d 1 with h | h
  · rw [if_pos h, (max_eq_left (by omega) : max (1 : Int) d = 1)]
  · rw [if_neg (by omega), max_eq_right h]

theorem composePayload_k (cfg : ToolConfig) (q : String) (ids : List String)
    (k : Int) (e : Option String) : ((composePayload cfg q ids k e).2).k = k := by
  simp only [composePayload]
  split
  · split <;> rfl
  · split <;> rfl

/-- C2 (amended): the default top_k is the configured value floored to 1; a
negative explicit top_k is clamped to 1; an explicit 0 is falsy and therefore
resolves to the configured default; a positive explicit value is sent as is;
and the `k` field of any outbound body equals the resolved value. -/
theorem topk_resolution_amended (raw : RawSettings) (cfg : ToolConfig) (q : String)
    (fileIds : Option (List String)) (topK : Option Int) (entityId : Option String) :
    ((mkToolConfig raw).defaultTopK = max 1 raw.RAG_TOP_K) ∧
    (∀ v, topK = some v → v < 0 → resolveTopK topK cfg.defaultTopK = 1) ∧
    (topK = some 0 → resolveTopK topK cfg.defaultTopK = max 1 cfg.defaultTopK) ∧
    (topK = none → resolveTopK topK cfg.defaultTopK = max 1 cfg.defaultTopK) ∧
    (∀ v, topK = some v → 1 ≤ v → resolveTopK topK cfg.defaultTopK = v) ∧
    (∀ m u ep p, arunStep cfg q fileIds topK entityId = ToolStep.sendRequest m u ep p →
      p.k = resolveTopK topK cfg.defaultTopK) := by
  refine ⟨rfl, ?_, ?_, ?_, ?_, ?_⟩
  · intro v hv hneg
    subst hv
    simp only [resolveTopK]
    rw [if_neg (by omega : ¬v = (0 : Int)), if_pos (by omega : v < 1)]
  · intro hv
    subst hv
    simp only [resolveTopK, if_pos rfl]
    exact floor_one_eq_max cfg.defaultTopK
  · intro hv
    subst hv
    simp only [resolveTopK]
    exact floor_one_eq_max cfg.defaultTopK
  · intro v hv hpos
    subst hv
    simp only [resolveTopK]
    rw [if_neg (by omega : ¬v = (0 : Int)), if_neg (by omega : ¬v < 1)]
  · intro m u ep p h
    simp only [arunStep] at h
    split at h
    · exact absurd h (by simp)
    · split at h
      · exact absurd h (by simp)
      · rw [ToolStep.sendRequest.injEq] at h
        rw [← h.2.2.2]
        exact composePayload_k cfg _ _ _ entityId

/-- C2 witness. -/
theorem topk_resolution_amended_witness :
    resolveTopK (some 0) cfgEx.defaultTopK = max 1 cfgEx.defaultTopK ∧
    resolveTopK (some (-3)) cfgEx.defaultTopK = 1 ∧
    resolveTopK (some 7) cfgEx.defaultTopK = 7 :=
  ⟨(topk_resolution_amended rawEx cfgEx "q" none (some 0) none).2.2.1 rfl,
   (topk_resolution_amended rawEx cfgEx "q" none (some (-3)) none).2.1 (-3) rfl (by decide),
   (topk_resolution_amended rawEx cfgEx "q" none (some 7) none).2.2.2.2.1 7 rfl (by decide)⟩

/-- C7: a blank query short-circuits with the fixed "query is required"
message, and a non-blank query with no resolved file identifiers
short-circuits with the fixed "no file identifiers" message — in both cases no
request step is produced and the returned string does not depend on any HTTP
outcome. -/
theorem arun_short_circuits (cfg : ToolConfig) (q : String) (fileIds : Option (List String))
    (topK : Option Int) (entityId : Option String) (outcome : HttpOutcome) :
    (pyStrip q = "" →
      arunStep cfg q fileIds topK entityId = ToolStep.earlyReturn queryRequiredMsg ∧
      arun cfg q fileIds topK entityId outcome = Except.ok queryRequiredMsg) ∧
    (pyStrip q ≠ "" → resolvedFileIds fileIds cfg.defaultFileIds = [] →
      arunStep cfg q fileIds topK entityId = ToolStep.earlyReturn noFileIdsMsg ∧
      arun cfg q fileIds topK entityId outcome = Except.ok noFileIdsMsg) := by
  constructor
  · intro hq
    have hstep : arunStep cfg q fileIds topK entityId = ToolStep.earlyReturn queryRequiredMsg := by
      simp only [arunStep, if_pos hq]
    exact ⟨hstep, by simp only [arun, hstep]⟩
  · intro hq hids
    have hstep : arunStep cfg q fileIds topK entityId = ToolStep.earlyReturn noFileIdsMsg := by
      simp only [arunStep, if_neg hq]
      rw [if_pos]
      rw [hids]
      rfl
    exact ⟨hstep, by simp only [arun, hstep]⟩

/-- C7 witness. -/
theorem arun_short_circuits_witness :
    (arunStep cfgEx "   " none none none = ToolStep.earlyReturn queryRequiredMsg ∧
     arun cfgEx "   " none none none HttpOutcome.timeout = Except.ok queryRequiredMsg) ∧
    (arunStep cfgEx "q" (some [""]) none none = ToolStep.earlyReturn noFileIdsMsg ∧
     arun cfgEx "q" (some [""]) none none HttpOutcome.timeout = Except.ok noFileIdsMsg) :=
  ⟨(arun_short_circuits cfgEx "   " none none none HttpOutcome.timeout).1 rfl,
   (arun_short_circuits cfgEx "q" (some [""]) none none HttpOutcome.timeout).2
     (by decide) rfl⟩

/-- C9: both token issuers return no credential (and do not raise) when the
signing secret is unset or signing fails; an issued credential has the
configured subject (default "agent_service"), issued-at now, and expiry
now + TTL with the TTL floored at 30 seconds on the proxy path and 10 seconds
on the tool path, so expiry is strictly after issuance. -/
theorem jwt_issuer_claims (secret subjectCfg : String) (ttlCfg now : Int)
    (signOk : Bool) (raw : RawSettings) :
    (ragJwtProxyClaims "" ttlCfg subjectCfg now signOk = none) ∧
    (ragJwtProxyClaims secret ttlCfg subjectCfg now false = none) ∧
    (∀ c, ragJwtProxyClaims secret ttlCfg subjectCfg now signOk = some c →
      c.sub = (if subjectCfg ≠ "" then subjectCfg else "agent_service") ∧
      c.iat = now ∧ c.exp = c.iat + max 30 ttlCfg ∧ c.iat < c.exp ∧ 30 ≤ c.exp - c.iat) ∧
    (raw.RAG_JWT_SECRET = "" → toolGenerateJwt (mkToolConfig raw) now signOk = none) ∧
    (toolGenerateJwt (mkToolConfig raw) now false = none) ∧
    (∀ c, toolGenerateJwt (mkToolConfig raw) now signOk = some c →
      c.sub = (if raw.RAG_SERVICE_SUBJECT ≠ "" then raw.RAG_SERVICE_SUBJECT
        else "agent_service") ∧
      c.iat = now ∧ c.exp = c.iat + max 10 raw.RAG_JWT_TTL_SECONDS ∧
      c.iat < c.exp ∧ 10 ≤ c.exp - c.iat) := by
  refine ⟨?_, ?_, ?_, ?_, ?_, ?_⟩
  · simp [ragJwtProxyClaims]
  · simp only [ragJwtProxyClaims]
    split <;> rfl
  · intro c hc
    simp only [ragJwtProxyClaims] at hc
    split at hc
    · exact absurd hc (by simp)
    · split at hc
      · have hc2 := Option.some.inj hc
        subst hc2
        refine ⟨rfl, rfl, rfl, ?_, ?_⟩ <;> simp
      · exact absurd hc (by simp)
  · intro hs
    simp only [toolGenerateJwt, mkToolConfig, hs]
    rfl
  · simp only [toolGenerateJwt]
    split <;> rfl
  · intro c hc
    simp only [toolGenerateJwt, mkToolConfig] at hc
    split at hc
    · exact absurd hc (by simp)
    · split at hc
      · have hc2 := Option.some.inj hc
        subst hc2
        refine ⟨rfl, rfl, rfl, ?_, ?_⟩ <;> simp
      · exact absurd hc (by simp)

/-- C9 witness. -/
theorem jwt_issuer_claims_witness :
    ((⟨"agent_service", 1000, 1060⟩ : JwtClaims).sub =
        (if ("" : String) ≠ "" then ("" : String) else "agent_service") ∧
      (⟨"agent_service", 1000, 1060⟩ : JwtClaims).iat = 1000 ∧
      (⟨"agent_service", 1000, 1060⟩ : JwtClaims).exp =
        (⟨"agent_service", 1000, 1060⟩ : JwtClaims).iat + max 30 60 ∧
      (⟨"agent_service", 1000, 1060⟩ : JwtClaims).iat <
        (⟨"agent_service", 1000, 1060⟩ : JwtClaims).exp ∧
      (30 : Int) ≤ (⟨"agent_service", 1000, 1060⟩ : JwtClaims).exp -
        (⟨"agent_service", 1000, 1060⟩ : JwtClaims).iat) ∧
    ((⟨"agent_service", 1000, 1060⟩ : JwtClaims).sub =
        (if rawEx.RAG_SERVICE_SUBJECT ≠ "" then rawEx.RAG_SERVICE_SUBJECT
          else "agent_service") ∧
      (⟨"agent_service", 1000, 1060⟩ : JwtClaims).iat = 1000 ∧
      (⟨"agent_service", 1000, 1060⟩ : JwtClaims).exp =
        (⟨"agent_service", 1000, 1060⟩ : JwtClaims).iat +
          max 10 rawEx.RAG_JWT_TTL_SECONDS ∧
      (⟨"agent_service", 1000, 1060⟩ : JwtClaims).iat <
        (⟨"agent_service", 1000, 1060⟩ : JwtClaims).exp ∧
      (10 : Int) ≤ (⟨"agent_service", 1000, 1060⟩ : JwtClaims).exp -
        (⟨"agent_service", 1000, 1060⟩ : JwtClaims).iat) :=
  ⟨(jwt_issuer_claims "secret" "" 60 1000 true rawEx).2.2.1
      ⟨"agent_service", 1000, 1060⟩ rfl,
   (jwt_issuer_claims "secret" "" 60 1000 true rawEx).2.2.2.2.2
      ⟨"agent_service", 1000, 1060⟩ rfl⟩

theorem formatEntries_skipped_then_rendered (pre : List Json) (d : Json) (body : String)
    (idx : Nat) (hpre : ∀ x ∈ pre, renderBody x = Except.ok none)
    (hd : renderBody d = Except.ok (some body)) :
    formatEntries idx (pre ++ [d]) = Except.ok [toString (idx + pre.length) ++ ". " ++ body] := by
  induction pre generalizing idx with
  | nil =>
    simp only [List.nil_append, formatEntries, hd, List.length_nil, Nat.add_zero]
  | cons a t ih =>
    have ha : renderBody a = Except.ok none := hpre a (List.mem_cons_self a t)
    have ht : ∀ x ∈ t, renderBody x = Except.ok none :=
      fun x hx => hpre x (List.mem_cons_of_mem a hx)
    simp only [List.cons_append, formatEntries, ha, List.append_eq]
    rw [ih (idx + 1) ht]
    have harith : idx + 1 + t.length = idx + (a :: t).length := by
      simp only [List.length_cons]
      omega
    rw [harith]

/-- C10: the index at the head of each rendered line is the entry's 1-based
position in the raw list: after `pre.length` skipped entries, the first
rendered line starts with `pre.length + 1`, so rendered indices can have gaps
and the first line can start past 1. -/
theorem format_results_index_positions (pre : List Json) (d : Json) (body : String)
    (hpre : ∀ x ∈ pre, renderBody x = Except.ok none)
    (hd : renderBody d = Except.ok (some body)) :
    formatResults (Json.arr (pre ++ [d])) =
      Except.ok (toString (pre.length + 1) ++ ". " ++ body) := by
  have hne : (pre ++ [d]).isEmpty = false := by
    cases pre <;> rfl
  have htr : truthy (Json.arr (pre ++ [d])) = true := by
    simp only [truthy, hne]
    rfl
  simp only [formatResults, htr, iterItems]
  rw [formatEntries_skipped_then_rendered pre d body 1 hpre hd]
  rw [Nat.add_comm 1 pre.length]
  rfl

/-- C10 witness: a skipped first entry (a bare number) consumes index 1, and
the only rendered line carries index 2. -/
theorem format_results_index_positions_witness :
    formatResults (Json.arr [Json.num 7, Json.obj [("page_content", Json.str "hello")]]) =
      Except.ok "2. score=n/a source=unknown source: hello" := by
  have h := format_results_index_positions [Json.num 7]
    (Json.obj [("page_content", Json.str "hello")])
    "score=n/a source=unknown source: hello"
    (by
      intro x hx
      rw [List.mem_singleton] at hx
      subst hx
      rfl)
    rfl
  have h2 : Except.ok (toString (([Json.num 7] : List Json).length + 1) ++ ". " ++
      "score=n/a source=unknown source: hello") =
      (Except.ok "2. score=n/a source=unknown source: hello" : Except PyErr String) := rfl
  exact h.trans h2

/-! ## Claim theorems about the proxy request and the outbound payload -/

/-- C3: every RAG Client failure on the proxy path surfaces as an HTTP error
response: an upstream status ≥ 400 becomes an `HTTPException` with that same
status and a "RAG request failed" detail, while transport and JSON-decode
failures escape and convert to the generic failure status 500; no failing
outcome produces a success value. -/
theorem rag_proxy_failures_surface (o : ProxyOutcome) :
    (outcomeFails o = true →
      ∃ exc, ragRequest o = Except.error exc ∧ 400 ≤ (endpointErrorResponse exc).1) ∧
    (outcomeFails o = false → ∃ v, ragRequest o = Except.ok v) ∧
    (∀ statusCode text reasonPhrase contentType parsedJson,
      o = ProxyOutcome.response statusCode text reasonPhrase contentType parsedJson →
      400 ≤ statusCode →
      ragRequest o = Except.error (ProxyExc.httpException statusCode
        ("RAG request failed: " ++ (if text ≠ "" then text else reasonPhrase))) ∧
      endpointErrorResponse (ProxyExc.httpException statusCode
        ("RAG request failed: " ++ (if text ≠ "" then text else reasonPhrase))) =
        (statusCode, "RAG request failed: " ++ (if text ≠ "" then text else reasonPhrase))) ∧
    (∀ msg, o = ProxyOutcome.transportFailure msg →
      ∃ exc, ragRequest o = Except.error exc ∧
        endpointErrorResponse exc = (500, "Internal Server Error")) ∧
    (∀ statusCode text reasonPhrase contentType,
      o = ProxyOutcome.response statusCode text reasonPhrase contentType none →
      statusCode < 400 → pyStartsWith contentType "application/json" = true →
      ∃ exc, ragRequest o = Except.error exc ∧
        endpointErrorResponse exc = (500, "Internal Server Error")) := by
  refine ⟨?_, ?_, ?_, ?_, ?_⟩
  · intro h
    cases o with
    | transportFailure msg => exact ⟨ProxyExc.transportError msg, rfl, by norm_num [endpointErrorResponse]⟩
    | response st txt r ct jb =>
      simp only [outcomeFails, Bool.or_eq_true, Bool.and_eq_true, decide_eq_true_eq,
        Option.isNone_iff_eq_none] at h
      by_cases hst : 400 ≤ st
      · refine ⟨ProxyExc.httpException st ("RAG request failed: " ++
          (if txt ≠ "" then txt else r)), ?_, ?_⟩
        · simp only [ragRequest]
          rw [if_pos hst]
        · simp only [endpointErrorResponse]
          omega
      · rcases h with h | ⟨hct, hjb⟩
        · exact absurd h hst
        · subst hjb
          refine ⟨ProxyExc.jsonDecodeError "Expecting value", ?_, by decide⟩
          simp only [ragRequest]
          rw [if_neg hst, if_pos hct]
  · intro h
    cases o with
    | transportFailure msg => simp [outcomeFails] at h
    | response st txt r ct jb =>
      simp only [outcomeFails, Bool.or_eq_false_iff, Bool.and_eq_false_iff,
        decide_eq_false_iff_not, Option.isNone_eq_false_iff, Option.isSome_iff_exists] at h
      obtain ⟨hst, hrest⟩ := h
      by_cases hct : pyStartsWith ct "application/json" = true
      · rcases hrest with hcf | ⟨j, hj⟩
        · exact absurd hct (by rw [hcf]; simp)
        · subst hj
          refine ⟨RagValue.json j, ?_⟩
          simp only [ragRequest]
          rw [if_neg hst, if_pos hct]
      · refine ⟨RagValue.text txt, ?_⟩
        simp only [ragRequest]
        rw [if_neg hst, if_neg hct]
  · intro st txt r ct jb ho hst
    subst ho
    refine ⟨?_, rfl⟩
    simp only [ragRequest]
    rw [if_pos hst]
  · intro msg ho
    subst ho
    exact ⟨ProxyExc.transportError msg, rfl, rfl⟩
  · intro st txt r ct ho hst hct
    subst ho
    refine ⟨ProxyExc.jsonDecodeError "Expecting value", ?_, rfl⟩
    simp only [ragRequest]
    rw [if_neg (by omega), if_pos hct]

/-- C3 witness. -/
theorem rag_proxy_failures_surface_witness :
    ∃ exc,
      ragRequest (ProxyOutcome.response 503 "boom" "Service Unavailable" "text/plain" none) =
        Except.error exc ∧
      400 ≤ (endpointErrorResponse exc).1 :=
  (rag_proxy_failures_surface
    (ProxyOutcome.response 503 "boom" "Service Unavailable" "text/plain" none)).1 rfl

theorem composePayload_query (cfg : ToolConfig) (q : String) (ids : List String)
    (k : Int) (e : Option String) : ((composePayload cfg q ids k e).2).query = q := by
  simp only [composePayload]
  split
  · split <;> rfl
  · split <;> rfl

theorem composePayload_entity (cfg : ToolConfig) (q : String) (ids : List String)
    (k : Int) (e : Option String) :
    ((composePayload cfg q ids k e).2).entity_id =
      (if resolveEntity e cfg.entityId ≠ "" then some (resolveEntity e cfg.entityId)
       else none) := by
  simp only [composePayload]
  split
  · split <;> rfl
  · split <;> rfl

theorem composePayload_single (cfg : ToolConfig) (q : String) (ids : List String)
    (k : Int) (e : Option String) (h : ¬(1 < ids.length)) :
    (composePayload cfg q ids k e).1 = cfg.queryEndpoint ∧
    ((composePayload cfg q ids k e).2).file_id = ids.head? ∧
    ((composePayload cfg q ids k e).2).file_ids = none := by
  have hd : decide (1 < ids.length) = false := by simp [h]
  simp only [composePayload, hd, Bool.false_eq_true, if_false]
  split <;> simp

theorem composePayload_multiple (cfg : ToolConfig) (q : String) (ids : List String)
    (k : Int) (e : Option String) (h : 1 < ids.length) :
    (composePayload cfg q ids k e).1 = cfg.queryMultipleEndpoint ∧
    ((composePayload cfg q ids k e).2).file_ids = some ids ∧
    ((composePayload cfg q ids k e).2).file_id = none := by
  have hd : decide (1 < ids.length) = true := by simp [h]
  simp only [composePayload, hd, if_true]
  split <;> simp

theorem resolveEntity_truthy (entityId : Option String) (cfgEntity : String) :
    resolveEntity entityId cfgEntity ≠ "" ↔
      ((∃ e, entityId = some e ∧ e ≠ "") ∨ cfgEntity ≠ "") := by
  cases entityId with
  | none => simp [resolveEntity]
  | some e =>
    by_cases he : e = ""
    · subst he
      simp [resolveEntity]
    · simp only [resolveEntity, if_pos he]
      constructor
      · intro _
        exact Or.inl ⟨e, rfl, he⟩
      · intro _
        exact he

/-- C8: every request that leaves `_arun` is a POST to base-url + endpoint
whose body carries the (stripped) query under `query` and the resolved top_k
under `k`; exactly one resolved identifier selects the single-query endpoint
with the id under `file_id`, more than one selects the multi-query endpoint
with the full ordered list under `file_ids`; `entity_id` is present in the
body exactly when an explicit or configured entity value is truthy. -/
theorem arun_outbound_payload (cfg : ToolConfig) (q : String) (fileIds : Option (List String))
    (topK : Option Int) (entityId : Option String) (m u ep : String) (p : QueryPayload)
    (h : arunStep cfg q fileIds topK entityId = ToolStep.sendRequest m u ep p) :
    m = "POST" ∧
    u = cfg.baseUrl ++ ep ∧
    p.query = pyStrip q ∧
    p.k = resolveTopK topK cfg.defaultTopK ∧
    ((resolvedFileIds fileIds cfg.defaultFileIds).length = 1 →
      ep = cfg.queryEndpoint ∧
      p.file_id = (resolvedFileIds fileIds cfg.defaultFileIds).head? ∧
      p.file_ids = none) ∧
    (1 < (resolvedFileIds fileIds cfg.defaultFileIds).length →
      ep = cfg.queryMultipleEndpoint ∧
      p.file_ids = some (resolvedFileIds fileIds cfg.defaultFileIds) ∧
      p.file_id = none) ∧
    (p.entity_id.isSome = true ↔ resolveEntity entityId cfg.entityId ≠ "") ∧
    (∀ e, p.entity_id = some e → e = resolveEntity entityId cfg.entityId) ∧
    (resolveEntity entityId cfg.entityId ≠ "" ↔
      ((∃ e, entityId = some e ∧ e ≠ "") ∨ cfg.entityId ≠ "")) := by
  simp only [arunStep] at h
  split at h
  · exact absurd h (by simp)
  · split at h
    · exact absurd h (by simp)
    · rw [ToolStep.sendRequest.injEq] at h
      obtain ⟨hm, hu, hep, hp⟩ := h
      subst hm
      subst hep
      subst hp
      subst hu
      refine ⟨rfl, rfl, composePayload_query cfg _ _ _ entityId,
        composePayload_k cfg _ _ _ entityId, ?_, ?_, ?_, ?_,
        resolveEntity_truthy entityId cfg.entityId⟩
      · intro hlen
        exact composePayload_single cfg _ _ _ entityId (by omega)
      · intro hlen
        exact composePayload_multiple cfg _ _ _ entityId hlen
      · rw [composePayload_entity]
        by_cases hr : resolveEntity entityId cfg.entityId ≠ ""
        · rw [if_pos hr]
          simp [hr]
        · rw [if_neg hr]
          simp [hr]
      · intro e he
        rw [composePayload_entity] at he
        by_cases hr : resolveEntity entityId cfg.entityId ≠ ""
        · rw [if_pos hr] at he
          exact (Option.some.inj he).symm
        · rw [if_neg hr] at he
          exact absurd he (by simp)

/-- C8 witness: two resolved identifiers select the multi-query endpoint and
carry the full list under `file_ids`. -/
theorem arun_outbound_payload_witness :
    "/query_multiple" = cfgEx.queryMultipleEndpoint ∧
    (⟨"q", 5, none, some ["a", "b"], some "ent"⟩ : QueryPayload).file_ids =
      some (resolvedFileIds (some ["a", "b"]) cfgEx.defaultFileIds) ∧
    (⟨"q", 5, none, some ["a", "b"], some "ent"⟩ : QueryPayload).file_id = none :=
  (arun_outbound_payload cfgEx " q " (some ["a", "b"]) none (some "ent") "POST"
      "http://rag/query_multiple" "/query_multiple"
      ⟨"q", 5, none, some ["a", "b"], some "ent"⟩ rfl).2.2.2.2.2.1 (by decide)
